import Mathlib

/-!
# A verification development for the `tiny_vect` vector library

`tiny_vect` provides two fixed-dimension IEEE-754 binary32 vector types,
`Vect2` (at `src/tiny_vect/src/vect2.rs`) and `Vect3`
(at `src/tiny_vect/src/vect3.rs`).  This file gives a shallow embedding of
the data model and of the operations of the library, and proves (or
refutes) the specification claims about them.

The scalar type `f32` is modelled by the inductive type `F32` below:
NaN, the two infinities, the two signed zeros, and nonzero finite values
carried as exact rational numbers.  Arithmetic is modelled exactly as
IEEE-754 binary32 arithmetic in the default round-to-nearest, ties-to-even
mode: the exact rational result of an operation is computed and then
rounded to 24 bits of precision with the usual overflow-to-infinity and
gradual-underflow behaviour.  All functions are computable by the kernel
(recursion is structural over explicit fuel), so concrete claims can be
settled with `decide`.

Rust `debug_assert!` guards (active in debug builds, elided in release
builds) are modelled by a `Bool` build-mode parameter on the functions
that contain them: the function returns `none` when the build is a debug
build and the assertion fails (the process aborts), and `some result`
otherwise.  Operations that contain no guard are modelled as total
functions, and functions whose value a claim needs only in release mode
also get a pure (release-semantics) embedding, which is the source with
the `debug_assert!` lines elided — exactly what release compilation does.
-/

/-! ## Integer helpers (structural recursion, kernel-evaluable) -/

/-- Helper for `nbits`: floor of the base-2 logarithm, driven by fuel. -/
def nbitsGo : Nat → Nat → Nat
  | 0, _ => 0
  | f + 1, n => if n ≤ 1 then 0 else nbitsGo f (n / 2) + 1

/-- Floor of the base-2 logarithm of a positive natural (`nbits 0 = 0`). -/
def nbits (n : Nat) : Nat := nbitsGo n n

/-- Helper for `isqrt`: Newton iteration from above, driven by fuel. -/
def isqrtGo : Nat → Nat → Nat → Nat
  | 0, _, x => x
  | f + 1, n, x =>
    let y := (x + n / x) / 2
    if y < x then isqrtGo f n y else x

/-- Integer square root (floor), by Newton iteration from an upper bound. -/
def isqrt (n : Nat) : Nat :=
  if n = 0 then 0 else isqrtGo (nbits n + 3) n (2 ^ (nbits n / 2 + 1))

/-- Multiply a rational by `2 ^ k` for a (possibly negative) integer `k`. -/
def qshift (q : ℚ) (k : ℤ) : ℚ :=
  if 0 ≤ k then q * ((2 ^ k.toNat : ℕ) : ℚ) else q / ((2 ^ (-k).toNat : ℕ) : ℚ)

/-- Floor of the base-2 logarithm of a positive rational: the unique `e`
with `2 ^ e ≤ a < 2 ^ (e + 1)`.  (Arbitrary on non-positive input.) -/
def qexp (a : ℚ) : ℤ :=
  let e0 : ℤ := (nbits a.num.toNat : ℤ) - (nbits a.den : ℤ)
  if qshift 1 (e0 + 1) ≤ a then e0 + 1
  else if qshift 1 e0 ≤ a then e0
  else e0 - 1

/-- Round a nonnegative rational to the nearest natural, ties to even. -/
def rne (q : ℚ) : Nat :=
  let n := q.num.toNat
  let d := q.den
  let m := n / d
  let r := n % d
  if 2 * r < d then m
  else if d < 2 * r then m + 1
  else if m % 2 = 0 then m else m + 1

/-! ## The `f32` value model -/

/-- Model of an IEEE-754 binary32 (`f32`) value.  The sign flag is `true`
for negative.  The `finite` constructor carries the exact (nonzero)
rational value; all operations below only ever construct `finite q` with
`q` a nonzero representable binary32 value. -/
inductive F32 where
  | nan : F32
  | inf : Bool → F32
  | zero : Bool → F32
  | finite : ℚ → F32
deriving DecidableEq

namespace F32

/-- IEEE-754 negation (exact sign flip, Rust unary `-` on `f32`). -/
def fneg : F32 → F32
  | .nan => .nan
  | .inf s => .inf (!s)
  | .zero s => .zero (!s)
  | .finite q => .finite (-q)

/-- Round a positive rational to binary32, round-to-nearest ties-to-even:
gradual underflow below `2 ^ (-126)`, overflow to `+∞` at `2 ^ 128`. -/
def roundPos (a : ℚ) : F32 :=
  if a < qshift 1 (-126) then
    let m := rne (qshift a 149)
    if m = 0 then F32.zero false else F32.finite (qshift (m : ℚ) (-149))
  else
    let e := qexp a
    let m := rne (qshift a (23 - e))
    let v := qshift (m : ℚ) (e - 23)
    if qshift 1 128 ≤ v then F32.inf false else F32.finite v

/-- Round an arbitrary exact rational result to binary32 (sign symmetric;
a nonzero value that underflows keeps its sign on the resulting zero). -/
def roundQ (q : ℚ) : F32 :=
  if q = 0 then F32.zero false
  else if 0 < q then roundPos q
  else fneg (roundPos (-q))

/-- IEEE-754 equality, Rust `==` on `f32`: NaN compares unequal to
everything (itself included) and `+0.0 == -0.0`. -/
def beq : F32 → F32 → Bool
  | .nan, _ => false
  | _, .nan => false
  | .inf s, .inf t => s == t
  | .inf _, _ => false
  | _, .inf _ => false
  | .zero _, .zero _ => true
  | .zero _, .finite q => q == 0
  | .finite q, .zero _ => q == 0
  | .finite a, .finite b => a == b

/-- IEEE-754 strict less-than, Rust `<` on `f32`: false whenever either
operand is NaN. -/
def blt : F32 → F32 → Bool
  | .nan, _ => false
  | _, .nan => false
  | .inf s, .inf t => s && !t
  | .inf s, _ => s
  | _, .inf t => !t
  | .zero _, .zero _ => false
  | .zero _, .finite q => decide (0 < q)
  | .finite q, .zero _ => decide (q < 0)
  | .finite a, .finite b => decide (a < b)

/-- IEEE-754 `>=`, Rust `>=` on `f32`. -/
def bge (a b : F32) : Bool := beq a b || blt b a

/-- Rust `f32::is_finite`. -/
def isFinite : F32 → Bool
  | .nan => false
  | .inf _ => false
  | .zero _ => true
  | .finite _ => true

/-- Rust `f32::is_nan`. -/
def isNan : F32 → Bool
  | .nan => true
  | _ => false

/-- Rust `f32::abs` (clears the sign bit; NaN stays NaN). -/
def fabs : F32 → F32
  | .nan => .nan
  | .inf _ => .inf false
  | .zero _ => .zero false
  | .finite q => .finite |q|

/-- IEEE-754 addition (round-to-nearest: an exactly cancelling sum of
nonzero operands and a sum of two oppositely-signed zeros give `+0.0`). -/
def fadd : F32 → F32 → F32
  | .nan, _ => .nan
  | _, .nan => .nan
  | .inf s, .inf t => if s = t then .inf s else .nan
  | .inf s, .zero _ => .inf s
  | .inf s, .finite _ => .inf s
  | .zero _, .inf t => .inf t
  | .finite _, .inf t => .inf t
  | .zero s, .zero t => if s = t then .zero s else .zero false
  | .zero _, .finite q => .finite q
  | .finite q, .zero _ => .finite q
  | .finite a, .finite b => if a + b = 0 then .zero false else roundQ (a + b)

/-- IEEE-754 subtraction: `a - b = a + (-b)` exactly. -/
def fsub (a b : F32) : F32 := fadd a (fneg b)

/-- IEEE-754 multiplication (`∞ · 0 = NaN`; signs multiply). -/
def fmul : F32 → F32 → F32
  | .nan, _ => .nan
  | _, .nan => .nan
  | .inf s, .inf t => .inf (xor s t)
  | .inf _, .zero _ => .nan
  | .zero _, .inf _ => .nan
  | .inf s, .finite q => .inf (xor s (decide (q < 0)))
  | .finite q, .inf t => .inf (xor (decide (q < 0)) t)
  | .zero s, .zero t => .zero (xor s t)
  | .zero s, .finite q => .zero (xor s (decide (q < 0)))
  | .finite q, .zero t => .zero (xor (decide (q < 0)) t)
  | .finite a, .finite b => roundQ (a * b)

/-- IEEE-754 division (`0 / 0 = ∞ / ∞ = NaN`, `finite / 0 = ±∞`). -/
def fdiv : F32 → F32 → F32
  | .nan, _ => .nan
  | _, .nan => .nan
  | .inf _, .inf _ => .nan
  | .inf s, .zero t => .inf (xor s t)
  | .inf s, .finite q => .inf (xor s (decide (q < 0)))
  | .zero _, .zero _ => .nan
  | .zero s, .inf t => .zero (xor s t)
  | .zero s, .finite q => .zero (xor s (decide (q < 0)))
  | .finite q, .zero t => .inf (xor (decide (q < 0)) t)
  | .finite q, .inf t => .zero (xor (decide (q < 0)) t)
  | .finite a, .finite b => roundQ (a / b)

/-- Correctly-rounded square root of a positive rational, to binary32.
The result of a square root is always in the normal range and never
overflows, so no range handling is needed. -/
def sqrtPos (a : ℚ) : F32 :=
  let e2 := qexp a
  let e := Int.fdiv e2 2
  let n := a.num.toNat
  let d := a.den
  let k := (23 : ℤ) - e
  let A := if 0 ≤ k then n * 4 ^ k.toNat else n
  let B := if 0 ≤ k then d else d * 4 ^ (-k).toNat
  let u := isqrt (4 * A * B)
  let m0 := (u + B) / (2 * B)
  let m := if 4 * A * B == (2 * m0 - 1) ^ 2 * B ^ 2 && m0 % 2 == 1 then m0 - 1 else m0
  F32.finite (qshift (m : ℚ) (e - 23))

/-- IEEE-754 square root, Rust `f32::sqrt`: NaN on negative input,
`sqrt (±0) = ±0`, `sqrt ∞ = ∞`. -/
def fsqrt : F32 → F32
  | .nan => .nan
  | .inf false => .inf false
  | .inf true => .nan
  | .zero s => .zero s
  | .finite q => if q < 0 then .nan else sqrtPos q

/-- Rust `f32::clamp`: `if self < min { min } else if self > max { max }
else { self }` — NaN input passes through. -/
def fclamp (x lo hi : F32) : F32 :=
  if blt x lo then lo else if blt hi x then hi else x

/-- Model of `f32::acos` from the platform math library (not part of this
repository's sources).  Only the special-value behaviour matters to any
theorem below: `acos` of NaN or of an argument outside `[-1, 1]` is NaN,
and `acos 1 = +0.0`.  On the rest of the domain the true result is some
positive finite value whose numeric magnitude no theorem relies on, so
the model uses a fixed finite placeholder there. -/
def facos (x : F32) : F32 :=
  match x with
  | .nan => .nan
  | .inf _ => .nan
  | .zero _ => .finite 1
  | .finite q =>
    if q < -1 ∨ 1 < q then .nan
    else if q == 1 then .zero false
    else .finite 1

/-- The bit pattern of a value, as produced by Rust `f32::to_bits` (used
by the `Hash` implementations).  NaN is given the canonical quiet-NaN
pattern.  On the nonzero finite values the sign, biased exponent and
mantissa fields are assembled in the usual IEEE-754 binary32 layout. -/
def toBits : F32 → Nat
  | .nan => 0x7FC00000
  | .inf false => 0x7F800000
  | .inf true => 0xFF800000
  | .zero false => 0x00000000
  | .zero true => 0x80000000
  | .finite q =>
    let s : Nat := if q < 0 then 2 ^ 31 else 0
    let a := |q|
    if a < qshift 1 (-126) then s + (qshift a 149).floor.toNat
    else
      let e := qexp a
      let ec : ℤ := if e < -126 then -126 else if 127 < e then 127 else e
      let m := (qshift a (23 - ec)).floor.toNat
      s + (ec + 127).toNat * 2 ^ 23 + (m - 2 ^ 23)

/-- The exact rational value of a non-NaN, non-infinite `F32`. -/
def toRat : F32 → Option ℚ
  | .zero _ => some 0
  | .finite q => some q
  | _ => none

/-- Well-formedness of an `F32` value: the `finite` constructor is
reserved for nonzero values (zero has the dedicated `zero` constructor).
All constructors in this file maintain this. -/
def wf : F32 → Bool
  | .finite q => q != 0
  | _ => true

end F32

/-- The `f32` literal `0.0` (`+0.0`). -/
def f32Zero : F32 := F32.zero false

/-- The `f32` literal `1.0`. -/
def f32One : F32 := F32.finite 1

/-- The `f32` literal `2.0`. -/
def f32Two : F32 := F32.finite 2

/-- `f32::EPSILON = 2 ^ (-23)`. -/
def f32Eps : F32 := F32.finite (1 / 2 ^ 23)

/-- `f32::MAX = (2 ^ 24 - 1) * 2 ^ 104`. -/
def f32Max : F32 := F32.finite ((2 ^ 24 - 1) * 2 ^ 104)

/-- Rust `i32 as f32` widening (round-to-nearest, ties-to-even). -/
def i32ToF32 (n : ℤ) : F32 := F32.roundQ (n : ℚ)

/-! ## `Vect2` (from `src/tiny_vect/src/vect2.rs`) -/

/-- The `Vect2` struct: `pub struct Vect2 { pub x: f32, pub y: f32 }`. -/
structure Vect2 where
  x : F32
  y : F32
deriving DecidableEq

namespace Vect2

/-- `Vect2::new`. -/
def new (x y : F32) : Vect2 := ⟨x, y⟩

/-- The derived `PartialEq` on `Vect2`: componentwise `f32` equality. -/
def beq (a b : Vect2) : Bool := F32.beq a.x b.x && F32.beq a.y b.y

/-- `impl Add for Vect2` (componentwise, unguarded). -/
def add (a rhs : Vect2) : Vect2 := ⟨F32.fadd a.x rhs.x, F32.fadd a.y rhs.y⟩

/-- `impl Sub for Vect2` (componentwise, unguarded). -/
def sub (a rhs : Vect2) : Vect2 := ⟨F32.fsub a.x rhs.x, F32.fsub a.y rhs.y⟩

/-- `impl Mul<f32> for Vect2` (scalar scale, unguarded). -/
def mul (a : Vect2) (rhs : F32) : Vect2 := ⟨F32.fmul a.x rhs, F32.fmul a.y rhs⟩

/-- `impl Div<f32> for Vect2` (scalar inverse scale, unguarded). -/
def div (a : Vect2) (rhs : F32) : Vect2 := ⟨F32.fdiv a.x rhs, F32.fdiv a.y rhs⟩

/-- `impl Neg for Vect2` (componentwise negation, unguarded). -/
def neg (a : Vect2) : Vect2 := ⟨F32.fneg a.x, F32.fneg a.y⟩

/-- `impl AddAssign for Vect2`: `self.x += rhs.x; self.y += rhs.y`
(sequential in-place updates, modelled by state passing). -/
def add_assign (self rhs : Vect2) : Vect2 :=
  let self := { self with x := F32.fadd self.x rhs.x }
  let self := { self with y := F32.fadd self.y rhs.y }
  self

/-- `impl SubAssign for Vect2`. -/
def sub_assign (self rhs : Vect2) : Vect2 :=
  let self := { self with x := F32.fsub self.x rhs.x }
  let self := { self with y := F32.fsub self.y rhs.y }
  self

/-- `impl MulAssign<f32> for Vect2`. -/
def mul_assign (self : Vect2) (rhs : F32) : Vect2 :=
  let self := { self with x := F32.fmul self.x rhs }
  let self := { self with y := F32.fmul self.y rhs }
  self

/-- `impl DivAssign<f32> for Vect2`. -/
def div_assign (self : Vect2) (rhs : F32) : Vect2 :=
  let self := { self with x := F32.fdiv self.x rhs }
  let self := { self with y := F32.fdiv self.y rhs }
  self

/-- `Vect2::length_squared` (release value; the debug finiteness assert
is on the result only and does not change the value). -/
def length_squared (v : Vect2) : F32 :=
  F32.fadd (F32.fmul v.x v.x) (F32.fmul v.y v.y)

/-- `Vect2::length = (x*x + y*y).sqrt()` (release value). -/
def length (v : Vect2) : F32 :=
  F32.fsqrt (F32.fadd (F32.fmul v.x v.x) (F32.fmul v.y v.y))

/-- `Vect2::dot` (release value). -/
def dot (a other : Vect2) : F32 :=
  F32.fadd (F32.fmul a.x other.x) (F32.fmul a.y other.y)

/-- `Vect2::cross = x1*y2 - y1*x2` (release value). -/
def cross (a other : Vect2) : F32 :=
  F32.fsub (F32.fmul a.x other.y) (F32.fmul a.y other.x)

/-- `Vect2::normalize`, release semantics (`debug_assert!` lines elided):
compute the squared length, take its square root, return `self` unchanged
when the length is `== 0.0` and `self / len` otherwise. -/
def normalize (v : Vect2) : Vect2 :=
  let sq := F32.fadd (F32.fmul v.x v.x) (F32.fmul v.y v.y)
  let len := F32.fsqrt sq
  if F32.beq len f32Zero then v else div v len

/-- `Vect2::normalize` with its build-mode-dependent `debug_assert!`
guards: in a debug build (`dbg = true`) a non-finite squared length, or a
non-finite quotient component, aborts (`none`). -/
def normalizeD (dbg : Bool) (v : Vect2) : Option Vect2 :=
  let sq := F32.fadd (F32.fmul v.x v.x) (F32.fmul v.y v.y)
  if dbg && !(F32.isFinite sq) then none
  else
    let len := F32.fsqrt sq
    if F32.beq len f32Zero then some v
    else
      let r := div v len
      if dbg && !(F32.isFinite r.x && F32.isFinite r.y) then none else some r

/-- `Vect2::angle_between` (release value).  The `acos` at the end is the
platform `f32::acos`, modelled by `F32.facos`. -/
def angle_between (a other : Vect2) : F32 :=
  if beq a other then f32Zero
  else
    let denom := F32.fmul (length a) (length other)
    if F32.beq denom f32Zero then f32Zero
    else
      let cos := F32.fclamp (F32.fdiv (dot a other) denom) (F32.finite (-1)) f32One
      if F32.blt (F32.fabs (F32.fsub cos f32One)) f32Eps then f32Zero
      else F32.facos cos

/-- `Vect2::reflect`: normalize the caller's normal, then
`*self - normal * 2.0 * self.dot(&normal)` (release value). -/
def reflect (v normal : Vect2) : Vect2 :=
  let n := Vect2.normalize normal
  sub v (mul (mul n f32Two) (dot v n))

/-- `Vect2::is_zero`: exact componentwise comparison with `0.0`. -/
def is_zero (v : Vect2) : Bool := F32.beq v.x f32Zero && F32.beq v.y f32Zero

/-- `Vect2::is_parallel`: `self.cross(other).abs() < f32::EPSILON`. -/
def is_parallel (a other : Vect2) : Bool :=
  F32.blt (F32.fabs (cross a other)) f32Eps

/-- `Vect2::debug_checked_add`: the unguarded `+` plus a debug-only
finiteness assert on the result. -/
def debug_checked_add (dbg : Bool) (a other : Vect2) : Option Vect2 :=
  let result := add a other
  if dbg && !(F32.isFinite result.x && F32.isFinite result.y) then none
  else some result

/-- `Vect2::debug_checked_sub`. -/
def debug_checked_sub (dbg : Bool) (a other : Vect2) : Option Vect2 :=
  let result := sub a other
  if dbg && !(F32.isFinite result.x && F32.isFinite result.y) then none
  else some result

/-- `Vect2::debug_checked_mul`. -/
def debug_checked_mul (dbg : Bool) (a : Vect2) (scalar : F32) : Option Vect2 :=
  let result := mul a scalar
  if dbg && !(F32.isFinite result.x && F32.isFinite result.y) then none
  else some result

/-- `Vect2::debug_checked_div`: the unguarded `/` plus a debug-only
assert that the scalar is not `== 0.0` and a debug-only finiteness assert
on the result. -/
def debug_checked_div (dbg : Bool) (a : Vect2) (scalar : F32) : Option Vect2 :=
  let result := div a scalar
  if dbg && F32.beq scalar f32Zero then none
  else if dbg && !(F32.isFinite result.x && F32.isFinite result.y) then none
  else some result

/-- `impl Index<usize> for Vect2`: `0 => x`, `1 => y`, anything else
panics (`panic!` is unconditional, so the build mode `dbg` is unused). -/
def index (dbg : Bool) (v : Vect2) (i : Nat) : Option F32 :=
  let _ := dbg
  match i with
  | 0 => some v.x
  | 1 => some v.y
  | _ => none

/-- `impl IndexMut<usize> for Vect2`, modelled as the write it enables:
`v[i] = val`.  Same unconditional bounds panic as `Index`. -/
def set (dbg : Bool) (v : Vect2) (i : Nat) (val : F32) : Option Vect2 :=
  let _ := dbg
  match i with
  | 0 => some { v with x := val }
  | 1 => some { v with y := val }
  | _ => none

/-- `impl From<[f32; 2]> for Vect2` (array modelled as a pair). -/
def from_f32_array (arr : F32 × F32) : Vect2 := ⟨arr.1, arr.2⟩

/-- `impl From<Vect2> for [f32; 2]`. -/
def to_f32_array (v : Vect2) : F32 × F32 := (v.x, v.y)

/-- `impl From<[i32; 2]> for Vect2` (`as f32` widening per component). -/
def from_i32_array (arr : ℤ × ℤ) : Vect2 := ⟨i32ToF32 arr.1, i32ToF32 arr.2⟩

/-- `impl TryFrom<&[f32]> for Vect2` (slice modelled as a list). -/
def try_from_slice_f32 (s : List F32) : Except String Vect2 :=
  if h : s.length = 2 then
    Except.ok ⟨s.get ⟨0, by omega⟩, s.get ⟨1, by omega⟩⟩
  else
    Except.error "Expected slice of length 2 for Vect2<f32>"

/-- `impl TryFrom<&[i32]> for Vect2`. -/
def try_from_slice_i32 (s : List ℤ) : Except String Vect2 :=
  if h : s.length = 2 then
    Except.ok ⟨i32ToF32 (s.get ⟨0, by omega⟩), i32ToF32 (s.get ⟨1, by omega⟩)⟩
  else
    Except.error "Expected slice of length 2 for Vect2<i32>"

/-- `impl Hash for Vect2`: the sequence of `Hasher::write_u32` calls it
performs — one raw bit pattern per component.  Any `Hasher`'s final value
is a function of this write sequence, so two values hash identically for
every hasher exactly when these sequences agree. -/
def hashWrites (v : Vect2) : List Nat := [F32.toBits v.x, F32.toBits v.y]

end Vect2

/-! ## `Vect3` (from `src/tiny_vect/src/vect3.rs`) -/

/-- The `Vect3` struct: `pub struct Vect3 { pub x: f32, pub y: f32, pub z: f32 }`. -/
structure Vect3 where
  x : F32
  y : F32
  z : F32
deriving DecidableEq

namespace Vect3

/-- `Vect3::new`. -/
def new (x y z : F32) : Vect3 := ⟨x, y, z⟩

/-- The derived `PartialEq` on `Vect3`. -/
def beq (a b : Vect3) : Bool :=
  F32.beq a.x b.x && F32.beq a.y b.y && F32.beq a.z b.z

/-- `impl Add for Vect3`. -/
def add (a rhs : Vect3) : Vect3 :=
  ⟨F32.fadd a.x rhs.x, F32.fadd a.y rhs.y, F32.fadd a.z rhs.z⟩

/-- `impl Sub for Vect3`. -/
def sub (a rhs : Vect3) : Vect3 :=
  ⟨F32.fsub a.x rhs.x, F32.fsub a.y rhs.y, F32.fsub a.z rhs.z⟩

/-- `impl Mul<f32> for Vect3`. -/
def mul (a : Vect3) (rhs : F32) : Vect3 :=
  ⟨F32.fmul a.x rhs, F32.fmul a.y rhs, F32.fmul a.z rhs⟩

/-- `impl Div<f32> for Vect3`. -/
def div (a : Vect3) (rhs : F32) : Vect3 :=
  ⟨F32.fdiv a.x rhs, F32.fdiv a.y rhs, F32.fdiv a.z rhs⟩

/-- `impl Neg for Vect3`. -/
def neg (a : Vect3) : Vect3 := ⟨F32.fneg a.x, F32.fneg a.y, F32.fneg a.z⟩

/-- `impl AddAssign for Vect3`. -/
def add_assign (self rhs : Vect3) : Vect3 :=
  let self := { self with x := F32.fadd self.x rhs.x }
  let self := { self with y := F32.fadd self.y rhs.y }
  let self := { self with z := F32.fadd self.z rhs.z }
  self

/-- `impl SubAssign for Vect3`. -/
def sub_assign (self rhs : Vect3) : Vect3 :=
  let self := { self with x := F32.fsub self.x rhs.x }
  let self := { self with y := F32.fsub self.y rhs.y }
  let self := { self with z := F32.fsub self.z rhs.z }
  self

/-- `impl MulAssign<f32> for Vect3`. -/
def mul_assign (self : Vect3) (rhs : F32) : Vect3 :=
  let self := { self with x := F32.fmul self.x rhs }
  let self := { self with y := F32.fmul self.y rhs }
  let self := { self with z := F32.fmul self.z rhs }
  self

/-- `impl DivAssign<f32> for Vect3`. -/
def div_assign (self : Vect3) (rhs : F32) : Vect3 :=
  let self := { self with x := F32.fdiv self.x rhs }
  let self := { self with y := F32.fdiv self.y rhs }
  let self := { self with z := F32.fdiv self.z rhs }
  self

/-- `Vect3::length_squared = x*x + y*y + z*z` (release value). -/
def length_squared (v : Vect3) : F32 :=
  F32.fadd (F32.fadd (F32.fmul v.x v.x) (F32.fmul v.y v.y)) (F32.fmul v.z v.z)

/-- `Vect3::length = self.length_squared().sqrt()` (release value). -/
def length (v : Vect3) : F32 := F32.fsqrt (length_squared v)

/-- `Vect3::dot` (release value). -/
def dot (a other : Vect3) : F32 :=
  F32.fadd (F32.fadd (F32.fmul a.x other.x) (F32.fmul a.y other.y))
    (F32.fmul a.z other.z)

/-- `Vect3::cross` (standard 3D cross formula, release value). -/
def cross (a other : Vect3) : Vect3 :=
  ⟨F32.fsub (F32.fmul a.y other.z) (F32.fmul a.z other.y),
   F32.fsub (F32.fmul a.z other.x) (F32.fmul a.x other.z),
   F32.fsub (F32.fmul a.x other.y) (F32.fmul a.y other.x)⟩

/-- `Vect3::normalize`, release semantics: `let len = self.length();
if len == 0.0 { *self } else { *self / len }`. -/
def normalize (v : Vect3) : Vect3 :=
  let len := length v
  if F32.beq len f32Zero then v else div v len

/-- `Vect3::normalize` with the build-mode-dependent guards of its call
chain: `length_squared` asserts its result finite, `length` asserts the
root finite, `normalize` asserts `len >= 0.0` and the quotient finite. -/
def normalizeD (dbg : Bool) (v : Vect3) : Option Vect3 :=
  let sq := length_squared v
  if dbg && !(F32.isFinite sq) then none
  else
    let len := F32.fsqrt sq
    if dbg && !(F32.isFinite len) then none
    else if dbg && !(F32.bge len f32Zero) then none
    else if F32.beq len f32Zero then some v
    else
      let r := div v len
      if dbg && !(F32.isFinite r.x && F32.isFinite r.y && F32.isFinite r.z) then none
      else some r

/-- `Vect3::angle_between` (release value, `acos` as in `F32.facos`). -/
def angle_between (a other : Vect3) : F32 :=
  if beq a other then f32Zero
  else
    let denom := F32.fmul (length a) (length other)
    if F32.beq denom f32Zero then f32Zero
    else
      let cos := F32.fclamp (F32.fdiv (dot a other) denom) (F32.finite (-1)) f32One
      if F32.blt (F32.fabs (F32.fsub cos f32One)) f32Eps then f32Zero
      else F32.facos cos

/-- `Vect3::reflect`: `let n = normal.normalize(); let dot = self.dot(&n);
*self - n * (2.0 * dot)` (release value). -/
def reflect (v normal : Vect3) : Vect3 :=
  let n := Vect3.normalize normal
  let d := dot v n
  sub v (mul n (F32.fmul f32Two d))

/-- `Vect3::is_zero`. -/
def is_zero (v : Vect3) : Bool :=
  F32.beq v.x f32Zero && F32.beq v.y f32Zero && F32.beq v.z f32Zero

/-- `Vect3::is_parallel`: `self.cross(other).length_squared().abs() < f32::EPSILON`. -/
def is_parallel (a other : Vect3) : Bool :=
  F32.blt (F32.fabs (length_squared (cross a other))) f32Eps

/-- `Vect3::debug_checked_add`. -/
def debug_checked_add (dbg : Bool) (a other : Vect3) : Option Vect3 :=
  let result := add a other
  if dbg && !(F32.isFinite result.x && F32.isFinite result.y && F32.isFinite result.z)
  then none else some result

/-- `Vect3::debug_checked_sub`. -/
def debug_checked_sub (dbg : Bool) (a other : Vect3) : Option Vect3 :=
  let result := sub a other
  if dbg && !(F32.isFinite result.x && F32.isFinite result.y && F32.isFinite result.z)
  then none else some result

/-- `Vect3::debug_checked_mul`. -/
def debug_checked_mul (dbg : Bool) (a : Vect3) (scalar : F32) : Option Vect3 :=
  let result := mul a scalar
  if dbg && !(F32.isFinite result.x && F32.isFinite result.y && F32.isFinite result.z)
  then none else some result

/-- `Vect3::debug_checked_div`. -/
def debug_checked_div (dbg : Bool) (a : Vect3) (scalar : F32) : Option Vect3 :=
  let result := div a scalar
  if dbg && F32.beq scalar f32Zero then none
  else if dbg && !(F32.isFinite result.x && F32.isFinite result.y && F32.isFinite result.z)
  then none else some result

/-- `impl Index<usize> for Vect3`: `0 => x`, `1 => y`, `2 => z`, anything
else panics unconditionally (build mode unused). -/
def index (dbg : Bool) (v : Vect3) (i : Nat) : Option F32 :=
  let _ := dbg
  match i with
  | 0 => some v.x
  | 1 => some v.y
  | 2 => some v.z
  | _ => none

/-- `impl IndexMut<usize> for Vect3`, modelled as the write it enables. -/
def set (dbg : Bool) (v : Vect3) (i : Nat) (val : F32) : Option Vect3 :=
  let _ := dbg
  match i with
  | 0 => some { v with x := val }
  | 1 => some { v with y := val }
  | 2 => some { v with z := val }
  | _ => none

/-- `impl From<[f32; 3]> for Vect3` (array modelled as a triple). -/
def from_f32_array (arr : F32 × F32 × F32) : Vect3 := ⟨arr.1, arr.2.1, arr.2.2⟩

/-- `impl From<Vect3> for [f32; 3]`. -/
def to_f32_array (v : Vect3) : F32 × F32 × F32 := (v.x, v.y, v.z)

/-- `impl From<[i32; 3]> for Vect3`. -/
def from_i32_array (arr : ℤ × ℤ × ℤ) : Vect3 :=
  ⟨i32ToF32 arr.1, i32ToF32 arr.2.1, i32ToF32 arr.2.2⟩

/-- `impl TryFrom<&[f32]> for Vect3`. -/
def try_from_slice_f32 (s : List F32) : Except String Vect3 :=
  if h : s.length = 3 then
    Except.ok ⟨s.get ⟨0, by omega⟩, s.get ⟨1, by omega⟩, s.get ⟨2, by omega⟩⟩
  else
    Except.error "Expected slice of length 3 for Vect3<f32>"

/-- `impl TryFrom<&[i32]> for Vect3`. -/
def try_from_slice_i32 (s : List ℤ) : Except String Vect3 :=
  if h : s.length = 3 then
    Except.ok ⟨i32ToF32 (s.get ⟨0, by omega⟩), i32ToF32 (s.get ⟨1, by omega⟩),
      i32ToF32 (s.get ⟨2, by omega⟩)⟩
  else
    Except.error "Expected slice of length 3 for Vect3<i32>"

/-- `impl Hash for Vect3`: the sequence of `Hasher::write_u32` calls. -/
def hashWrites (v : Vect3) : List Nat :=
  [F32.toBits v.x, F32.toBits v.y, F32.toBits v.z]

end Vect3

/-! ## Auxiliary definitions for the claims -/

/-- The documented hashing exception: a pair of zeros of opposite sign
(equal under IEEE `==`, but with different bit patterns). -/
def mixedZero (a b : F32) : Prop :=
  (a = F32.zero false ∧ b = F32.zero true) ∨ (a = F32.zero true ∧ b = F32.zero false)

/-! ## Proof infrastructure

`Rat.add`, `Rat.sub`, `Rat.mul` and `Rat.inv` are `@[irreducible]` in the
library, which blocks `decide` from evaluating the model on concrete
inputs; the kernel itself is free to unfold them, so restoring their
transparency locally is sound and lets concrete claims be settled by
`decide`. -/

attribute [local semireducible] Rat.add Rat.sub Rat.mul Rat.inv

set_option maxRecDepth 100000

/-! ## Shared lemmas about the `F32` model -/

/-- IEEE `==` is reflexive away from NaN. -/
theorem F32.beq_refl_of_not_nan (a : F32) (h : F32.isNan a = false) :
    F32.beq a a = true := by
  cases a <;> simp_all [F32.isNan, F32.beq]

/-- `sqrtPos` always yields a `finite` value. -/
theorem F32.sqrtPos_ctor (q : ℚ) : ∃ m : ℚ, F32.sqrtPos q = F32.finite m :=
  ⟨_, rfl⟩

/-- A value with a rational interpretation is finite. -/
theorem F32.isFinite_of_toRat (a : F32) (p : ℚ) (h : F32.toRat a = some p) :
    F32.isFinite a = true := by
  cases a <;> simp_all [F32.toRat, F32.isFinite]

/-- Two values carrying the same exact rational subtract to an exact
zero (of some sign). -/
theorem F32.toRat_fsub_cancel (t1 t2 : F32) (p : ℚ) (h1 : F32.toRat t1 = some p)
    (h2 : F32.toRat t2 = some p) : F32.toRat (F32.fsub t1 t2) = some 0 := by
  cases t1 with
  | nan => simp [F32.toRat] at h1
  | inf s => simp [F32.toRat] at h1
  | zero s =>
    obtain rfl : (0 : ℚ) = p := by simpa [F32.toRat] using h1
    cases t2 with
    | nan => simp [F32.toRat] at h2
    | inf t => simp [F32.toRat] at h2
    | zero t => cases s <;> cases t <;> decide
    | finite q =>
      obtain rfl : q = 0 := by simpa [F32.toRat] using h2
      cases s <;> decide
  | finite a =>
    obtain rfl : a = p := by simpa [F32.toRat] using h1
    cases t2 with
    | nan => simp [F32.toRat] at h2
    | inf t => simp [F32.toRat] at h2
    | zero t =>
      obtain rfl : (0 : ℚ) = a := by simpa [F32.toRat] using h2
      cases t <;> decide
    | finite b =>
      obtain rfl : b = a := by simpa [F32.toRat] using h2
      simp [F32.fsub, F32.fneg, F32.fadd, F32.toRat]

/-- Multiplying an exact zero by a finite value gives an exact zero. -/
theorem F32.toRat_fmul_zero_left (a b : F32) (ha : F32.toRat a = some 0)
    (hb : F32.isFinite b = true) : F32.toRat (F32.fmul a b) = some 0 := by
  cases a with
  | nan => simp [F32.toRat] at ha
  | inf s => simp [F32.toRat] at ha
  | zero s =>
    cases b with
    | nan => simp [F32.isFinite] at hb
    | inf t => simp [F32.isFinite] at hb
    | zero t => simp [F32.fmul, F32.toRat]
    | finite q => simp [F32.fmul, F32.toRat]
  | finite a =>
    obtain rfl : a = 0 := by simpa [F32.toRat] using ha
    cases b with
    | nan => simp [F32.isFinite] at hb
    | inf t => simp [F32.isFinite] at hb
    | zero t => simp [F32.fmul, F32.toRat]
    | finite q => simp [F32.fmul, F32.roundQ, F32.toRat]

/-- Multiplying a finite value by an exact zero gives an exact zero. -/
theorem F32.toRat_fmul_zero_right (a b : F32) (ha : F32.isFinite a = true)
    (hb : F32.toRat b = some 0) : F32.toRat (F32.fmul a b) = some 0 := by
  cases b with
  | nan => simp [F32.toRat] at hb
  | inf s => simp [F32.toRat] at hb
  | zero s =>
    cases a with
    | nan => simp [F32.isFinite] at ha
    | inf t => simp [F32.isFinite] at ha
    | zero t => simp [F32.fmul, F32.toRat]
    | finite q => simp [F32.fmul, F32.toRat]
  | finite b =>
    obtain rfl : b = 0 := by simpa [F32.toRat] using hb
    cases a with
    | nan => simp [F32.isFinite] at ha
    | inf t => simp [F32.isFinite] at ha
    | zero t => simp [F32.fmul, F32.toRat]
    | finite q => simp [F32.fmul, F32.roundQ, F32.toRat]

/-- Adding two exact zeros gives an exact zero. -/
theorem F32.toRat_fadd_zero (a b : F32) (ha : F32.toRat a = some 0)
    (hb : F32.toRat b = some 0) : F32.toRat (F32.fadd a b) = some 0 := by
  cases a with
  | nan => simp [F32.toRat] at ha
  | inf s => simp [F32.toRat] at ha
  | zero s =>
    cases b with
    | nan => simp [F32.toRat] at hb
    | inf t => simp [F32.toRat] at hb
    | zero t => cases s <;> cases t <;> decide
    | finite q =>
      obtain rfl : q = 0 := by simpa [F32.toRat] using hb
      simp [F32.fadd, F32.toRat]
  | finite a =>
    obtain rfl : a = 0 := by simpa [F32.toRat] using ha
    cases b with
    | nan => simp [F32.toRat] at hb
    | inf t => simp [F32.toRat] at hb
    | zero t => simp [F32.fadd, F32.toRat]
    | finite q =>
      obtain rfl : q = 0 := by simpa [F32.toRat] using hb
      simp [F32.fadd, F32.toRat]

/-- The absolute value of an exact zero is strictly below `f32::EPSILON`. -/
theorem F32.blt_abs_eps_of_toRat_zero (a : F32) (ha : F32.toRat a = some 0) :
    F32.blt (F32.fabs a) f32Eps = true := by
  cases a with
  | nan => simp [F32.toRat] at ha
  | inf s => simp [F32.toRat] at ha
  | zero s => cases s <;> decide
  | finite q =>
    obtain rfl : q = 0 := by simpa [F32.toRat] using ha
    decide

/-! ## Claim C9: array round trip -/

/-- Claim C9: for every fixed-size float array of matching dimensionality,
constructing a `Vect2` (or `Vect3`) from the array and converting back to
a float array yields exactly the original components (bit-for-bit: `F32`
values are compared structurally, which identifies values with their bit
patterns). -/
theorem claim_c9 : ∀ (p : F32 × F32) (q : F32 × F32 × F32),
    Vect2.to_f32_array (Vect2.from_f32_array p) = p ∧
    Vect3.to_f32_array (Vect3.from_f32_array q) = q :=
  fun _ _ => ⟨rfl, rfl⟩

/-! ## Claim C5: indexing -/

/-- Claim C5: indexing a `Vect2` with `0`/`1` returns `x`/`y` (and `2`
returns `z` for `Vect3`); any index at or beyond the dimensionality
aborts with an out-of-range panic in every build mode (the build-mode
argument is irrelevant to the result), and mutable indexing (modelled as
the write `v[i] = val`) has identical bounds semantics. -/
theorem claim_c5 : ∀ (dbg : Bool) (v : Vect2) (w : Vect3) (i : Nat) (a : F32),
    Vect2.index dbg v 0 = some v.x ∧ Vect2.index dbg v 1 = some v.y ∧
    (2 ≤ i → Vect2.index dbg v i = none) ∧
    Vect2.set dbg v 0 a = some ⟨a, v.y⟩ ∧
    Vect2.set dbg v 1 a = some ⟨v.x, a⟩ ∧
    (2 ≤ i → Vect2.set dbg v i a = none) ∧
    Vect3.index dbg w 0 = some w.x ∧ Vect3.index dbg w 1 = some w.y ∧
    Vect3.index dbg w 2 = some w.z ∧
    (3 ≤ i → Vect3.index dbg w i = none) ∧
    Vect3.set dbg w 0 a = some ⟨a, w.y, w.z⟩ ∧
    Vect3.set dbg w 1 a = some ⟨w.x, a, w.z⟩ ∧
    Vect3.set dbg w 2 a = some ⟨w.x, w.y, a⟩ ∧
    (3 ≤ i → Vect3.set dbg w i a = none) := by
  intro dbg v w i a
  refine ⟨rfl, rfl, ?_, rfl, rfl, ?_, rfl, rfl, rfl, ?_, rfl, rfl, rfl, ?_⟩
  · intro h
    obtain ⟨j, rfl⟩ : ∃ j, i = j + 2 := ⟨i - 2, by omega⟩
    rfl
  · intro h
    obtain ⟨j, rfl⟩ : ∃ j, i = j + 2 := ⟨i - 2, by omega⟩
    rfl
  · intro h
    obtain ⟨j, rfl⟩ : ∃ j, i = j + 3 := ⟨i - 3, by omega⟩
    rfl
  · intro h
    obtain ⟨j, rfl⟩ : ∃ j, i = j + 3 := ⟨i - 3, by omega⟩
    rfl

/-- Witness for C5 at concrete inputs (both build modes, index `5`). -/
theorem claim_c5_witness :
    Vect2.index true ⟨f32One, f32Two⟩ 5 = none ∧
    Vect2.set false ⟨f32One, f32Two⟩ 5 f32Zero = none ∧
    Vect3.index true ⟨f32One, f32Two, f32Zero⟩ 5 = none ∧
    Vect3.set false ⟨f32One, f32Two, f32Zero⟩ 5 f32Zero = none :=
  ⟨(claim_c5 true ⟨f32One, f32Two⟩ ⟨f32One, f32Two, f32Zero⟩ 5 f32Zero).2.2.1
      (by omega),
   (claim_c5 false ⟨f32One, f32Two⟩ ⟨f32One, f32Two, f32Zero⟩ 5 f32Zero).2.2.2.2.2.1
      (by omega),
   (claim_c5 true ⟨f32One, f32Two⟩ ⟨f32One, f32Two, f32Zero⟩ 5 f32Zero).2.2.2.2.2.2.2.2.2.1
      (by omega),
   (claim_c5 false ⟨f32One, f32Two⟩ ⟨f32One, f32Two, f32Zero⟩ 5
      f32Zero).2.2.2.2.2.2.2.2.2.2.2.2.2 (by omega)⟩

/-! ## Claim C6: fallible slice conversions -/

/-- Claim C6: for every float or integer slice, the fallible conversion to
`Vect2` (resp. `Vect3`) succeeds with components matching the slice
elements (integers widened to float) if and only if the slice length is
exactly 2 (resp. 3); otherwise it returns an error value carrying the
message naming the expected dimensionality and element type. -/
theorem claim_c6 : ∀ (a b c : F32) (m n p : ℤ) (s : List F32) (t : List ℤ),
    Vect2.try_from_slice_f32 [a, b] = Except.ok ⟨a, b⟩ ∧
    (s.length ≠ 2 → Vect2.try_from_slice_f32 s =
      Except.error "Expected slice of length 2 for Vect2<f32>") ∧
    Vect2.try_from_slice_i32 [m, n] = Except.ok ⟨i32ToF32 m, i32ToF32 n⟩ ∧
    (t.length ≠ 2 → Vect2.try_from_slice_i32 t =
      Except.error "Expected slice of length 2 for Vect2<i32>") ∧
    Vect3.try_from_slice_f32 [a, b, c] = Except.ok ⟨a, b, c⟩ ∧
    (s.length ≠ 3 → Vect3.try_from_slice_f32 s =
      Except.error "Expected slice of length 3 for Vect3<f32>") ∧
    Vect3.try_from_slice_i32 [m, n, p] =
      Except.ok ⟨i32ToF32 m, i32ToF32 n, i32ToF32 p⟩ ∧
    (t.length ≠ 3 → Vect3.try_from_slice_i32 t =
      Except.error "Expected slice of length 3 for Vect3<i32>") := by
  intro a b c m n p s t
  refine ⟨rfl, ?_, rfl, ?_, rfl, ?_, rfl, ?_⟩ <;>
    · intro h
      exact dif_neg h

/-- Witness for C6: a slice of the wrong length is rejected. -/
theorem claim_c6_witness :
    Vect2.try_from_slice_f32 [f32One] =
      Except.error "Expected slice of length 2 for Vect2<f32>" ∧
    Vect2.try_from_slice_i32 [] =
      Except.error "Expected slice of length 2 for Vect2<i32>" ∧
    Vect3.try_from_slice_f32 [f32One, f32Two] =
      Except.error "Expected slice of length 3 for Vect3<f32>" ∧
    Vect3.try_from_slice_i32 [1, 2, 3, 4] =
      Except.error "Expected slice of length 3 for Vect3<i32>" :=
  ⟨(claim_c6 f32One f32One f32One 1 1 1 [f32One] []).2.1 (by simp),
   (claim_c6 f32One f32One f32One 1 1 1 [f32One] []).2.2.2.1 (by simp),
   (claim_c6 f32One f32One f32One 1 1 1 [f32One, f32Two] []).2.2.2.2.2.1 (by simp),
   (claim_c6 f32One f32One f32One 1 1 1 [] [1, 2, 3, 4]).2.2.2.2.2.2.2 (by simp)⟩

/-! ## Claim C8: unguarded arithmetic is total and unchecked -/

/-- Claim C8: the unguarded arithmetic operations on `Vect2` and `Vect3`
(componentwise add, subtract, negate, scalar multiply, scalar divide and
their compound-assignment variants) are total: they are embedded as total
functions (their source contains no assert or panic), the
compound-assignment variants agree with the plain operators on every
input, and non-finite results — overflow to infinity, NaN propagation and
division by a zero scalar — pass through silently. -/
theorem claim_c8 : ∀ (a b : Vect2) (s : F32) (u w : Vect3),
    Vect2.add_assign a b = Vect2.add a b ∧
    Vect2.sub_assign a b = Vect2.sub a b ∧
    Vect2.mul_assign a s = Vect2.mul a s ∧
    Vect2.div_assign a s = Vect2.div a s ∧
    Vect3.add_assign u w = Vect3.add u w ∧
    Vect3.sub_assign u w = Vect3.sub u w ∧
    Vect3.mul_assign u s = Vect3.mul u s ∧
    Vect3.div_assign u s = Vect3.div u s ∧
    Vect2.add ⟨f32Max, f32One⟩ ⟨f32Max, f32One⟩ = ⟨F32.inf false, F32.finite 2⟩ ∧
    Vect2.sub ⟨F32.inf false, F32.nan⟩ ⟨F32.inf false, f32One⟩ = ⟨F32.nan, F32.nan⟩ ∧
    Vect2.mul ⟨f32Max, f32Max⟩ f32Two = ⟨F32.inf false, F32.inf false⟩ ∧
    Vect2.div ⟨f32One, F32.finite (-1)⟩ f32Zero = ⟨F32.inf false, F32.inf true⟩ ∧
    Vect2.neg ⟨F32.nan, F32.inf false⟩ = ⟨F32.nan, F32.inf true⟩ ∧
    Vect3.add ⟨f32Max, f32One, F32.nan⟩ ⟨f32Max, f32One, f32One⟩ =
      ⟨F32.inf false, F32.finite 2, F32.nan⟩ ∧
    Vect3.div ⟨f32One, F32.finite (-1), f32Zero⟩ f32Zero =
      ⟨F32.inf false, F32.inf true, F32.nan⟩ ∧
    Vect3.neg ⟨F32.nan, F32.inf false, f32Zero⟩ =
      ⟨F32.nan, F32.inf true, F32.zero true⟩ := by
  intro a b s u w
  exact ⟨rfl, rfl, rfl, rfl, rfl, rfl, rfl, rfl, by decide, by decide, by decide,
    by decide, by decide, by decide, by decide, by decide⟩

/-! ## Claim C1: checked arithmetic refines the unguarded operators -/

/-- Claim C1: for both `Vect2` and `Vect3`, every checked operation
(`debug_checked_add`, `debug_checked_sub`, `debug_checked_mul`,
`debug_checked_div`) behaves in release builds (`dbg = false`) identically
to the corresponding unguarded operator on every input; in debug builds
(`dbg = true`) a non-finite component in the result — or a scalar divisor
`== 0.0` for `debug_checked_div` — aborts, and otherwise the result equals
the unguarded operation's result. -/
theorem claim_c1 : ∀ (a b : Vect2) (s : F32) (u w : Vect3),
    Vect2.debug_checked_add false a b = some (Vect2.add a b) ∧
    Vect2.debug_checked_sub false a b = some (Vect2.sub a b) ∧
    Vect2.debug_checked_mul false a s = some (Vect2.mul a s) ∧
    Vect2.debug_checked_div false a s = some (Vect2.div a s) ∧
    Vect2.debug_checked_add true a b =
      (bif F32.isFinite (Vect2.add a b).x && F32.isFinite (Vect2.add a b).y
       then some (Vect2.add a b) else none) ∧
    Vect2.debug_checked_sub true a b =
      (bif F32.isFinite (Vect2.sub a b).x && F32.isFinite (Vect2.sub a b).y
       then some (Vect2.sub a b) else none) ∧
    Vect2.debug_checked_mul true a s =
      (bif F32.isFinite (Vect2.mul a s).x && F32.isFinite (Vect2.mul a s).y
       then some (Vect2.mul a s) else none) ∧
    Vect2.debug_checked_div true a s =
      (bif !F32.beq s f32Zero &&
           (F32.isFinite (Vect2.div a s).x && F32.isFinite (Vect2.div a s).y)
       then some (Vect2.div a s) else none) ∧
    Vect3.debug_checked_add false u w = some (Vect3.add u w) ∧
    Vect3.debug_checked_sub false u w = some (Vect3.sub u w) ∧
    Vect3.debug_checked_mul false u s = some (Vect3.mul u s) ∧
    Vect3.debug_checked_div false u s = some (Vect3.div u s) ∧
    Vect3.debug_checked_add true u w =
      (bif F32.isFinite (Vect3.add u w).x && F32.isFinite (Vect3.add u w).y &&
           F32.isFinite (Vect3.add u w).z
       then some (Vect3.add u w) else none) ∧
    Vect3.debug_checked_sub true u w =
      (bif F32.isFinite (Vect3.sub u w).x && F32.isFinite (Vect3.sub u w).y &&
           F32.isFinite (Vect3.sub u w).z
       then some (Vect3.sub u w) else none) ∧
    Vect3.debug_checked_mul true u s =
      (bif F32.isFinite (Vect3.mul u s).x && F32.isFinite (Vect3.mul u s).y &&
           F32.isFinite (Vect3.mul u s).z
       then some (Vect3.mul u s) else none) ∧
    Vect3.debug_checked_div true u s =
      (bif !F32.beq s f32Zero &&
           (F32.isFinite (Vect3.div u s).x && F32.isFinite (Vect3.div u s).y &&
            F32.isFinite (Vect3.div u s).z)
       then some (Vect3.div u s) else none) := by
  intro a b s u w
  refine ⟨rfl, rfl, rfl, rfl, ?_, ?_, ?_, ?_, rfl, rfl, rfl, rfl, ?_, ?_, ?_, ?_⟩
  · cases h : F32.isFinite (Vect2.add a b).x && F32.isFinite (Vect2.add a b).y <;>
      simp [Vect2.debug_checked_add, h]
  · cases h : F32.isFinite (Vect2.sub a b).x && F32.isFinite (Vect2.sub a b).y <;>
      simp [Vect2.debug_checked_sub, h]
  · cases h : F32.isFinite (Vect2.mul a s).x && F32.isFinite (Vect2.mul a s).y <;>
      simp [Vect2.debug_checked_mul, h]
  · cases hz : F32.beq s f32Zero <;>
      cases h : F32.isFinite (Vect2.div a s).x && F32.isFinite (Vect2.div a s).y <;>
      simp [Vect2.debug_checked_div, hz, h]
  · cases h : F32.isFinite (Vect3.add u w).x && F32.isFinite (Vect3.add u w).y &&
        F32.isFinite (Vect3.add u w).z <;>
      simp [Vect3.debug_checked_add, ← Bool.and_assoc, h]
  · cases h : F32.isFinite (Vect3.sub u w).x && F32.isFinite (Vect3.sub u w).y &&
        F32.isFinite (Vect3.sub u w).z <;>
      simp [Vect3.debug_checked_sub, ← Bool.and_assoc, h]
  · cases h : F32.isFinite (Vect3.mul u s).x && F32.isFinite (Vect3.mul u s).y &&
        F32.isFinite (Vect3.mul u s).z <;>
      simp [Vect3.debug_checked_mul, ← Bool.and_assoc, h]
  · cases hz : F32.beq s f32Zero <;>
      cases h : F32.isFinite (Vect3.div u s).x && F32.isFinite (Vect3.div u s).y &&
        F32.isFinite (Vect3.div u s).z <;>
      simp [Vect3.debug_checked_div, ← Bool.and_assoc, hz, h]

/-! ## Claim C2: `angle_between(v, v)` -/

/-- Claim C2 counterexample: for the vector `(NaN, 0.0)` — equal to
itself componentwise except on the NaN component, so the structural
equality shortcut does not fire — `angle_between(v, v)` evaluates to NaN,
not to `0`, in release builds (in debug builds the final finiteness guard
aborts instead; either way it does not return `0`). -/
theorem claim_c2_counterexample :
    Vect2.angle_between ⟨F32.nan, F32.zero false⟩ ⟨F32.nan, F32.zero false⟩ =
      F32.nan ∧
    F32.beq (Vect2.angle_between ⟨F32.nan, F32.zero false⟩ ⟨F32.nan, F32.zero false⟩)
      (F32.zero false) = false ∧
    F32.nan ≠ F32.zero false := by
  refine ⟨by decide, by decide, by decide⟩

/-- Claim C2 (amended): for every vector `v` (`Vect2` or `Vect3`) none of
whose components is NaN — including the zero vector and vectors with
infinite components — `angle_between(v, v)` returns exactly `+0.0`,
because the structural-equality shortcut fires.  (For a vector with a NaN
component `v == v` is false and the result is NaN, see the
counterexample.) -/
theorem claim_c2_amended :
    (∀ v : Vect2, F32.isNan v.x = false → F32.isNan v.y = false →
      Vect2.angle_between v v = F32.zero false) ∧
    (∀ v : Vect3, F32.isNan v.x = false → F32.isNan v.y = false →
      F32.isNan v.z = false → Vect3.angle_between v v = F32.zero false) := by
  constructor
  · intro v hx hy
    have h : Vect2.beq v v = true := by
      unfold Vect2.beq
      rw [F32.beq_refl_of_not_nan v.x hx, F32.beq_refl_of_not_nan v.y hy]
      rfl
    simp [Vect2.angle_between, h]
    rfl
  · intro v hx hy hz
    have h : Vect3.beq v v = true := by
      unfold Vect3.beq
      rw [F32.beq_refl_of_not_nan v.x hx, F32.beq_refl_of_not_nan v.y hy,
        F32.beq_refl_of_not_nan v.z hz]
      rfl
    simp [Vect3.angle_between, h]
    rfl

/-- Witness for the amended C2, at the zero vector and at a nonzero
vector. -/
theorem claim_c2_witness :
    Vect2.angle_between ⟨f32Zero, f32Zero⟩ ⟨f32Zero, f32Zero⟩ = F32.zero false ∧
    Vect3.angle_between ⟨f32One, f32Two, f32Zero⟩ ⟨f32One, f32Two, f32Zero⟩ =
      F32.zero false :=
  ⟨claim_c2_amended.1 ⟨f32Zero, f32Zero⟩ (by decide) (by decide),
   claim_c2_amended.2 ⟨f32One, f32Two, f32Zero⟩ (by decide) (by decide) (by decide)⟩

/-! ## Claim C3: `normalize` -/

/-- Claim C3: for both `Vect2` and `Vect3`, `normalize` applied to a
vector whose computed length compares `== 0.0` returns that vector
unchanged without failing in either build mode (no debug guard can fire
on that path), and for every other input the release build returns the
input divided componentwise by its length. -/
theorem claim_c3 :
    (∀ (dbg : Bool) (v : Vect2), F32.beq (Vect2.length v) f32Zero = true →
      Vect2.normalizeD dbg v = some v) ∧
    (∀ v : Vect2, F32.beq (Vect2.length v) f32Zero = false →
      Vect2.normalizeD false v = some (Vect2.div v (Vect2.length v))) ∧
    (∀ (dbg : Bool) (v : Vect3), F32.beq (Vect3.length v) f32Zero = true →
      Vect3.normalizeD dbg v = some v) ∧
    (∀ v : Vect3, F32.beq (Vect3.length v) f32Zero = false →
      Vect3.normalizeD false v = some (Vect3.div v (Vect3.length v))) := by
  refine ⟨?_, ?_, ?_, ?_⟩
  · intro dbg v h
    unfold Vect2.length at h
    unfold Vect2.normalizeD
    generalize hs : F32.fadd (F32.fmul v.x v.x) (F32.fmul v.y v.y) = sq at h ⊢
    cases sq with
    | nan => simp [F32.fsqrt, F32.beq, f32Zero] at h
    | inf s => cases s <;> simp [F32.fsqrt, F32.beq, f32Zero] at h
    | zero s => simp [F32.isFinite, h]
    | finite q => simp [F32.isFinite, h]
  · intro v h
    unfold Vect2.length at h
    unfold Vect2.normalizeD Vect2.length
    simp [h]
  · intro dbg v h
    unfold Vect3.length at h
    unfold Vect3.normalizeD
    generalize hs : Vect3.length_squared v = sq at h ⊢
    cases sq with
    | nan => simp [F32.fsqrt, F32.beq, f32Zero] at h
    | inf s => cases s <;> simp [F32.fsqrt, F32.beq, f32Zero] at h
    | zero s =>
      simp only [F32.fsqrt] at h ⊢
      simp [F32.isFinite, F32.bge, F32.beq, f32Zero, h]
    | finite q =>
      by_cases hq : q < 0
      · simp [F32.fsqrt, hq, F32.beq, f32Zero] at h
      · obtain ⟨m, hm⟩ := F32.sqrtPos_ctor q
        simp only [F32.fsqrt, if_neg hq, hm] at h ⊢
        have hm0 : (m == (0 : ℚ)) = true := by simpa [F32.beq, f32Zero] using h
        simp [F32.isFinite, F32.bge, F32.beq, f32Zero, h, hm0]
  · intro v h
    unfold Vect3.length at h
    unfold Vect3.normalizeD Vect3.length
    simp [h]

/-- Witness for C3: the zero vector normalizes to itself in debug mode,
and a unit vector is divided by its length in release mode. -/
theorem claim_c3_witness :
    Vect2.normalizeD true ⟨f32Zero, f32Zero⟩ = some ⟨f32Zero, f32Zero⟩ ∧
    Vect2.normalizeD false ⟨f32One, f32Zero⟩ =
      some (Vect2.div ⟨f32One, f32Zero⟩ (Vect2.length ⟨f32One, f32Zero⟩)) ∧
    Vect3.normalizeD true ⟨f32Zero, f32Zero, f32Zero⟩ =
      some ⟨f32Zero, f32Zero, f32Zero⟩ ∧
    Vect3.normalizeD false ⟨f32Zero, f32Two, f32Zero⟩ =
      some (Vect3.div ⟨f32Zero, f32Two, f32Zero⟩
        (Vect3.length ⟨f32Zero, f32Two, f32Zero⟩)) :=
  ⟨claim_c3.1 true ⟨f32Zero, f32Zero⟩ (by decide),
   claim_c3.2.1 ⟨f32One, f32Zero⟩ (by decide),
   claim_c3.2.2.1 true ⟨f32Zero, f32Zero, f32Zero⟩ (by decide),
   claim_c3.2.2.2 ⟨f32Zero, f32Two, f32Zero⟩ (by decide)⟩

/-! ## Claim C7: hashing agrees with equality up to signed zeros -/

/-- Components that compare `==` have equal bit patterns, except a pair
of oppositely-signed zeros. -/
theorem F32.toBits_of_beq (a b : F32) (ha : F32.wf a = true) (hb : F32.wf b = true)
    (h : F32.beq a b = true) : F32.toBits a = F32.toBits b ∨ mixedZero a b := by
  cases a with
  | nan => simp [F32.beq] at h
  | inf s =>
    cases b with
    | nan => simp [F32.beq] at h
    | inf t =>
      obtain rfl : s = t := by simpa [F32.beq] using h
      exact Or.inl rfl
    | zero t => simp [F32.beq] at h
    | finite q => simp [F32.beq] at h
  | zero s =>
    cases b with
    | nan => simp [F32.beq] at h
    | inf t => simp [F32.beq] at h
    | zero t => cases s <;> cases t <;> simp [mixedZero]
    | finite q =>
      obtain rfl : q = 0 := by simpa [F32.beq] using h
      simp [F32.wf] at hb
  | finite p =>
    cases b with
    | nan => simp [F32.beq] at h
    | inf t => simp [F32.beq] at h
    | zero t =>
      obtain rfl : p = 0 := by simpa [F32.beq] using h
      simp [F32.wf] at ha
    | finite q =>
      obtain rfl : p = q := by simpa [F32.beq] using h
      exact Or.inl rfl

/-- Claim C7: for every pair of `Vect2` (or `Vect3`) values that compare
structurally equal (derived `PartialEq`), the two values perform the same
sequence of hasher writes — hence hash identically for every hasher —
with the sole exception of components that are zeros of opposite sign:
`+0.0` and `-0.0` compare equal yet have different bit patterns, as the
concrete conjuncts demonstrate.  The well-formedness hypotheses say only
that the `finite` constructor is not abused to encode zero, which holds
for every value the library can construct. -/
theorem claim_c7 :
    (∀ v w : Vect2, F32.wf v.x = true → F32.wf v.y = true → F32.wf w.x = true →
      F32.wf w.y = true → Vect2.beq v w = true →
      (Vect2.hashWrites v = Vect2.hashWrites w ∨ mixedZero v.x w.x ∨
        mixedZero v.y w.y)) ∧
    (∀ v w : Vect3, F32.wf v.x = true → F32.wf v.y = true → F32.wf v.z = true →
      F32.wf w.x = true → F32.wf w.y = true → F32.wf w.z = true →
      Vect3.beq v w = true →
      (Vect3.hashWrites v = Vect3.hashWrites w ∨ mixedZero v.x w.x ∨
        mixedZero v.y w.y ∨ mixedZero v.z w.z)) ∧
    (Vect2.beq ⟨F32.zero false, f32Zero⟩ ⟨F32.zero true, f32Zero⟩ = true ∧
      Vect2.hashWrites ⟨F32.zero false, f32Zero⟩ ≠
        Vect2.hashWrites ⟨F32.zero true, f32Zero⟩) ∧
    (Vect3.beq ⟨f32Zero, F32.zero true, f32Zero⟩ ⟨f32Zero, F32.zero false, f32Zero⟩ =
        true ∧
      Vect3.hashWrites ⟨f32Zero, F32.zero true, f32Zero⟩ ≠
        Vect3.hashWrites ⟨f32Zero, F32.zero false, f32Zero⟩) := by
  refine ⟨?_, ?_, by decide, by decide⟩
  · intro v w hvx hvy hwx hwy h
    obtain ⟨hx, hy⟩ : F32.beq v.x w.x = true ∧ F32.beq v.y w.y = true := by
      simpa [Vect2.beq, Bool.and_eq_true] using h
    rcases F32.toBits_of_beq v.x w.x hvx hwx hx with bx | mx
    · rcases F32.toBits_of_beq v.y w.y hvy hwy hy with by' | my
      · exact Or.inl (by simp [Vect2.hashWrites, bx, by'])
      · exact Or.inr (Or.inr my)
    · exact Or.inr (Or.inl mx)
  · intro v w hvx hvy hvz hwx hwy hwz h
    obtain ⟨hx, hy, hz⟩ :
        F32.beq v.x w.x = true ∧ F32.beq v.y w.y = true ∧ F32.beq v.z w.z = true := by
      simpa [Vect3.beq, Bool.and_eq_true, and_assoc] using h
    rcases F32.toBits_of_beq v.x w.x hvx hwx hx with bx | mx
    · rcases F32.toBits_of_beq v.y w.y hvy hwy hy with by' | my
      · rcases F32.toBits_of_beq v.z w.z hvz hwz hz with bz | mz
        · exact Or.inl (by simp [Vect3.hashWrites, bx, by', bz])
        · exact Or.inr (Or.inr (Or.inr mz))
      · exact Or.inr (Or.inr (Or.inl my))
    · exact Or.inr (Or.inl mx)

/-- Witness for C7: two bitwise-identical nonzero vectors hash
identically. -/
theorem claim_c7_witness :
    Vect2.hashWrites ⟨f32One, f32Two⟩ = Vect2.hashWrites ⟨f32One, f32Two⟩ ∧
    Vect3.hashWrites ⟨f32One, f32Two, F32.finite (-3)⟩ =
      Vect3.hashWrites ⟨f32One, f32Two, F32.finite (-3)⟩ :=
  ⟨(claim_c7.1 ⟨f32One, f32Two⟩ ⟨f32One, f32Two⟩ (by decide) (by decide) (by decide)
        (by decide) (by decide)).resolve_right (by simp [mixedZero, f32One, f32Two]),
   (claim_c7.2.1 ⟨f32One, f32Two, F32.finite (-3)⟩ ⟨f32One, f32Two, F32.finite (-3)⟩
        (by decide) (by decide) (by decide) (by decide) (by decide) (by decide)
        (by decide)).resolve_right (by simp [mixedZero, f32One, f32Two])⟩

/-! ## Claim C4: `is_parallel(a, k*a)` -/

/-- Claim C4 counterexample: for `a = (1 + 2^-23, 1 + 3*2^-23)` and the
scalar `k = 1.5 > 0` — all exactly representable `f32` values, with no
overflow anywhere — rounding of the intermediate products makes the two
cross terms land on opposite sides of a rounding boundary, so the
computed cross product of `a` and `k*a` is `-2^-23`, whose absolute value
equals `f32::EPSILON` and is not strictly below it: `is_parallel(a, k*a)`
is `false`. -/
theorem claim_c4_counterexample :
    F32.blt f32Zero (F32.finite (3 / 2)) = true ∧
    Vect2.cross ⟨F32.finite (1 + 1 / 2 ^ 23), F32.finite (1 + 3 / 2 ^ 23)⟩
      (Vect2.mul ⟨F32.finite (1 + 1 / 2 ^ 23), F32.finite (1 + 3 / 2 ^ 23)⟩
        (F32.finite (3 / 2))) = F32.finite (-(1 / 2 ^ 23)) ∧
    Vect2.is_parallel ⟨F32.finite (1 + 1 / 2 ^ 23), F32.finite (1 + 3 / 2 ^ 23)⟩
      (Vect2.mul ⟨F32.finite (1 + 1 / 2 ^ 23), F32.finite (1 + 3 / 2 ^ 23)⟩
        (F32.finite (3 / 2))) = false := by
  refine ⟨by decide, by decide, by decide⟩

/-- Claim C4 (amended): for every vector `a` and scalar `k > 0` such that
the two cross-product terms `a.x * (k * a.y)` and `a.y * (k * a.x)` are
computed exactly — each carries the exact rational product of the exact
rational values of the inputs, which in particular requires NaN-free,
non-overflowing data (e.g. any `a` and `k` a modest power of two) —
`is_parallel(a, k·a)` returns true, for `Vect2` and `Vect3` alike.  In
general rounding or overflow can make the two terms differ by at least
`f32::EPSILON`, see the counterexample. -/
theorem claim_c4_amended :
    (∀ (a : Vect2) (k : F32) (qx qy qk : ℚ),
      F32.blt f32Zero k = true →
      F32.toRat a.x = some qx → F32.toRat a.y = some qy → F32.toRat k = some qk →
      F32.toRat (F32.fmul a.x (F32.fmul a.y k)) = some (qx * (qy * qk)) →
      F32.toRat (F32.fmul a.y (F32.fmul a.x k)) = some (qy * (qx * qk)) →
      Vect2.is_parallel a (Vect2.mul a k) = true) ∧
    (∀ (a : Vect3) (k : F32) (qx qy qz qk : ℚ),
      F32.blt f32Zero k = true →
      F32.toRat a.x = some qx → F32.toRat a.y = some qy →
      F32.toRat a.z = some qz → F32.toRat k = some qk →
      F32.toRat (F32.fmul a.y (F32.fmul a.z k)) = some (qy * (qz * qk)) →
      F32.toRat (F32.fmul a.z (F32.fmul a.y k)) = some (qz * (qy * qk)) →
      F32.toRat (F32.fmul a.z (F32.fmul a.x k)) = some (qz * (qx * qk)) →
      F32.toRat (F32.fmul a.x (F32.fmul a.z k)) = some (qx * (qz * qk)) →
      F32.toRat (F32.fmul a.x (F32.fmul a.y k)) = some (qx * (qy * qk)) →
      F32.toRat (F32.fmul a.y (F32.fmul a.x k)) = some (qy * (qx * qk)) →
      Vect3.is_parallel a (Vect3.mul a k) = true) := by
  constructor
  · intro a k qx qy qk hk hx hy hkr h1 h2
    have h2' : F32.toRat (F32.fmul a.y (F32.fmul a.x k)) = some (qx * (qy * qk)) := by
      rw [h2]; ring_nf
    have hz : F32.toRat (F32.fsub (F32.fmul a.x (F32.fmul a.y k))
        (F32.fmul a.y (F32.fmul a.x k))) = some 0 :=
      F32.toRat_fsub_cancel _ _ _ h1 h2'
    unfold Vect2.is_parallel Vect2.cross Vect2.mul
    exact F32.blt_abs_eps_of_toRat_zero _ hz
  · intro a k qx qy qz qk hk hx hy hz hkr h1 h2 h3 h4 h5 h6
    have c1 : F32.toRat (F32.fsub (F32.fmul a.y (F32.fmul a.z k))
        (F32.fmul a.z (F32.fmul a.y k))) = some 0 :=
      F32.toRat_fsub_cancel _ _ _ h1 (by rw [h2]; ring_nf)
    have c2 : F32.toRat (F32.fsub (F32.fmul a.z (F32.fmul a.x k))
        (F32.fmul a.x (F32.fmul a.z k))) = some 0 :=
      F32.toRat_fsub_cancel _ _ _ h3 (by rw [h4]; ring_nf)
    have c3 : F32.toRat (F32.fsub (F32.fmul a.x (F32.fmul a.y k))
        (F32.fmul a.y (F32.fmul a.x k))) = some 0 :=
      F32.toRat_fsub_cancel _ _ _ h5 (by rw [h6]; ring_nf)
    unfold Vect3.is_parallel Vect3.cross Vect3.mul Vect3.length_squared
    refine F32.blt_abs_eps_of_toRat_zero _ ?_
    refine F32.toRat_fadd_zero _ _ (F32.toRat_fadd_zero _ _ ?_ ?_) ?_
    · exact F32.toRat_fmul_zero_left _ _ c1 (F32.isFinite_of_toRat _ _ c1)
    · exact F32.toRat_fmul_zero_left _ _ c2 (F32.isFinite_of_toRat _ _ c2)
    · exact F32.toRat_fmul_zero_left _ _ c3 (F32.isFinite_of_toRat _ _ c3)

/-- Witness for the amended C4: `a = (1, 2)` (resp. `(1, 2, 3)`) and
`k = 2`, where every product is exact. -/
theorem claim_c4_witness :
    Vect2.is_parallel ⟨f32One, f32Two⟩ (Vect2.mul ⟨f32One, f32Two⟩ f32Two) = true ∧
    Vect3.is_parallel ⟨f32One, f32Two, F32.finite 3⟩
      (Vect3.mul ⟨f32One, f32Two, F32.finite 3⟩ f32Two) = true :=
  ⟨claim_c4_amended.1 ⟨f32One, f32Two⟩ f32Two 1 2 2 (by decide) (by decide)
      (by decide) (by decide) (by decide) (by decide),
   claim_c4_amended.2 ⟨f32One, f32Two, F32.finite 3⟩ f32Two 1 2 3 2 (by decide)
      (by decide) (by decide) (by decide) (by decide) (by decide) (by decide)
      (by decide) (by decide) (by decide) (by decide)⟩

/-! ## Claim C10: `reflect` with a zero-length normal -/

/-- A signed zero times a finite value is a signed zero. -/
theorem F32.fmul_zero_ctor_left (s : Bool) (b : F32) (hb : F32.isFinite b = true) :
    ∃ t, F32.fmul (F32.zero s) b = F32.zero t := by
  cases b with
  | nan => simp [F32.isFinite] at hb
  | inf t => simp [F32.isFinite] at hb
  | zero t => exact ⟨_, rfl⟩
  | finite q => exact ⟨_, rfl⟩

/-- A finite value times a signed zero is a signed zero. -/
theorem F32.fmul_zero_ctor_right (a : F32) (s : Bool) (ha : F32.isFinite a = true) :
    ∃ t, F32.fmul a (F32.zero s) = F32.zero t := by
  cases a with
  | nan => simp [F32.isFinite] at ha
  | inf t => simp [F32.isFinite] at ha
  | zero t => exact ⟨_, rfl⟩
  | finite q => exact ⟨_, rfl⟩

/-- The sum of two signed zeros is a signed zero. -/
theorem F32.fadd_zero_ctor (s t : Bool) :
    ∃ w, F32.fadd (F32.zero s) (F32.zero t) = F32.zero w := by
  cases s <;> cases t <;> exact ⟨_, rfl⟩

/-- Subtracting a signed zero from a finite value leaves it `==`-equal. -/
theorem F32.beq_fsub_zero (a : F32) (s : Bool) (ha : F32.isFinite a = true) :
    F32.beq (F32.fsub a (F32.zero s)) a = true := by
  cases a with
  | nan => simp [F32.isFinite] at ha
  | inf t => simp [F32.isFinite] at ha
  | zero t => cases s <;> cases t <;> decide
  | finite q => simp [F32.fsub, F32.fneg, F32.fadd, F32.beq]

/-- Normalizing a vector of signed zeros returns it unchanged. -/
theorem Vect2.normalize_zero_ctor2 (sx sy : Bool) :
    Vect2.normalize ⟨F32.zero sx, F32.zero sy⟩ = ⟨F32.zero sx, F32.zero sy⟩ := by
  cases sx <;> cases sy <;> decide

/-- Normalizing a `Vect3` of signed zeros returns it unchanged. -/
theorem Vect3.normalize_zero_ctor3 (sx sy sz : Bool) :
    Vect3.normalize ⟨F32.zero sx, F32.zero sy, F32.zero sz⟩ =
      ⟨F32.zero sx, F32.zero sy, F32.zero sz⟩ := by
  cases sx <;> cases sy <;> cases sz <;> decide

/-- Claim C10 counterexample: the claim's premise is "a zero-length
normal", i.e. a normal whose computed length is exactly `0.0`.  The
normal `n = (2^-80, 2^-80)` has computed length `+0.0` (its squared
length underflows to zero), yet it is not the zero vector, so
`normalize` returns it unchanged and nonzero; for `v = (2^-149, 2^120)`
the reflection then returns a vector whose first component is `-2^-39`,
not `v.x = 2^-149` — `reflect(v, n)` is not `v` (neither bitwise nor
under IEEE `==`). -/
theorem claim_c10_counterexample :
    Vect2.length ⟨F32.finite (1 / 2 ^ 80), F32.finite (1 / 2 ^ 80)⟩ =
      F32.zero false ∧
    (Vect2.reflect ⟨F32.finite (1 / 2 ^ 149), F32.finite (2 ^ 120)⟩
        ⟨F32.finite (1 / 2 ^ 80), F32.finite (1 / 2 ^ 80)⟩).x =
      F32.finite (-(1 / 2 ^ 39)) ∧
    Vect2.reflect ⟨F32.finite (1 / 2 ^ 149), F32.finite (2 ^ 120)⟩
        ⟨F32.finite (1 / 2 ^ 80), F32.finite (1 / 2 ^ 80)⟩ ≠
      ⟨F32.finite (1 / 2 ^ 149), F32.finite (2 ^ 120)⟩ ∧
    Vect2.beq
      (Vect2.reflect ⟨F32.finite (1 / 2 ^ 149), F32.finite (2 ^ 120)⟩
        ⟨F32.finite (1 / 2 ^ 80), F32.finite (1 / 2 ^ 80)⟩)
      ⟨F32.finite (1 / 2 ^ 149), F32.finite (2 ^ 120)⟩ = false := by
  refine ⟨by decide, by decide, by decide, by decide⟩

/-- Claim C10 (amended): for every vector `v` with finite components,
`reflect(v, n)` with `n` the zero vector (components `±0.0`, the only
zero-length vectors that normalize to an actual zero vector) returns a
vector comparing `==`-equal to `v`: normalization leaves `n` unchanged,
every term of the correction `2·(v·n̂)·n̂` collapses to a signed zero, and
subtracting a signed zero preserves every component up to the sign of a
zero.  (Subnormal nonzero normals can also have computed length zero but
then the result need not be `v`, and a `v` with an infinite component
turns the correction into NaN — see the counterexample and the `∞·0`
rule.) -/
theorem claim_c10_amended :
    (∀ (v : Vect2) (sx sy : Bool), F32.isFinite v.x = true →
      F32.isFinite v.y = true →
      Vect2.beq (Vect2.reflect v ⟨F32.zero sx, F32.zero sy⟩) v = true) ∧
    (∀ (v : Vect3) (sx sy sz : Bool), F32.isFinite v.x = true →
      F32.isFinite v.y = true → F32.isFinite v.z = true →
      Vect3.beq (Vect3.reflect v ⟨F32.zero sx, F32.zero sy, F32.zero sz⟩) v =
        true) := by
  constructor
  · intro v sx sy hx hy
    unfold Vect2.reflect
    rw [Vect2.normalize_zero_ctor2]
    dsimp only
    obtain ⟨t1, e1⟩ := F32.fmul_zero_ctor_right v.x sx hx
    obtain ⟨t2, e2⟩ := F32.fmul_zero_ctor_right v.y sy hy
    obtain ⟨d, ed⟩ : ∃ d, Vect2.dot v ⟨F32.zero sx, F32.zero sy⟩ = F32.zero d := by
      unfold Vect2.dot
      rw [e1, e2]
      exact F32.fadd_zero_ctor t1 t2
    rw [ed]
    obtain ⟨m1, em1⟩ := F32.fmul_zero_ctor_left sx f32Two (by decide)
    obtain ⟨m2, em2⟩ := F32.fmul_zero_ctor_left sy f32Two (by decide)
    unfold Vect2.mul
    simp only [em1, em2]
    obtain ⟨w1, ew1⟩ := F32.fmul_zero_ctor_left m1 (F32.zero d) rfl
    obtain ⟨w2, ew2⟩ := F32.fmul_zero_ctor_left m2 (F32.zero d) rfl
    simp only [ew1, ew2]
    unfold Vect2.sub Vect2.beq
    rw [F32.beq_fsub_zero v.x w1 hx, F32.beq_fsub_zero v.y w2 hy]
    rfl
  · intro v sx sy sz hx hy hz
    unfold Vect3.reflect
    rw [Vect3.normalize_zero_ctor3]
    dsimp only
    obtain ⟨t1, e1⟩ := F32.fmul_zero_ctor_right v.x sx hx
    obtain ⟨t2, e2⟩ := F32.fmul_zero_ctor_right v.y sy hy
    obtain ⟨t3, e3⟩ := F32.fmul_zero_ctor_right v.z sz hz
    obtain ⟨d, ed⟩ :
        ∃ d, Vect3.dot v ⟨F32.zero sx, F32.zero sy, F32.zero sz⟩ = F32.zero d := by
      unfold Vect3.dot
      rw [e1, e2, e3]
      obtain ⟨d0, ed0⟩ := F32.fadd_zero_ctor t1 t2
      rw [ed0]
      exact F32.fadd_zero_ctor d0 t3
    rw [ed]
    obtain ⟨m, em⟩ := F32.fmul_zero_ctor_right f32Two d (by decide)
    rw [em]
    obtain ⟨w1, ew1⟩ := F32.fmul_zero_ctor_left sx (F32.zero m) rfl
    obtain ⟨w2, ew2⟩ := F32.fmul_zero_ctor_left sy (F32.zero m) rfl
    obtain ⟨w3, ew3⟩ := F32.fmul_zero_ctor_left sz (F32.zero m) rfl
    unfold Vect3.mul
    simp only [ew1, ew2, ew3]
    unfold Vect3.sub Vect3.beq
    rw [F32.beq_fsub_zero v.x w1 hx, F32.beq_fsub_zero v.y w2 hy,
      F32.beq_fsub_zero v.z w3 hz]
    rfl

/-- Witness for the amended C10 at concrete inputs (normals `(+0, -0)`
and `(-0, -0, +0)`). -/
theorem claim_c10_witness :
    Vect2.beq
      (Vect2.reflect ⟨f32One, f32Two⟩ ⟨F32.zero false, F32.zero true⟩)
      ⟨f32One, f32Two⟩ = true ∧
    Vect3.beq
      (Vect3.reflect ⟨f32One, f32Two, F32.finite (-3)⟩
        ⟨F32.zero true, F32.zero true, F32.zero false⟩)
      ⟨f32One, f32Two, F32.finite (-3)⟩ = true :=
  ⟨claim_c10_amended.1 ⟨f32One, f32Two⟩ false true (by decide) (by decide),
   claim_c10_amended.2 ⟨f32One, f32Two, F32.finite (-3)⟩ true true false
      (by decide) (by decide) (by decide)⟩
